import Mathlib

/-!
Verification development for the 3d-data-viewer GPU rendering/picking core.

The definitions below are a shallow embedding of the WGSL shader
(`src/shader.wgsl`, the mip-aware variant with picking output) and of the
host-integration layer (`wasm-demo/src/demo.js`).  32-bit floats are
modelled as exact rationals; `u32` arithmetic is modelled on `Nat` with
explicit wraparound (`% 2^32`) where the source subtracts.
-/

namespace Viewer

/-- `vec4<f32>` modelled over the rationals. -/
structure Vec4 where
  x : ℚ
  y : ℚ
  z : ℚ
  w : ℚ
deriving DecidableEq

/-- `vec2<u32>`. -/
structure Vec2u where
  x : Nat
  y : Nat
deriving DecidableEq

/-- An RGBA texel (result of `textureLoad` on an rgba texture). -/
structure Rgba where
  r : ℚ
  g : ℚ
  b : ℚ
  a : ℚ
deriving DecidableEq

/-- `struct ImageDimensions { width: u32, height: u32 }` (group 1, binding 0). -/
structure ImageDimensions where
  width : Nat
  height : Nat
deriving DecidableEq

/-- `struct ZValueRange { min: f32, max: f32 }` (group 1, binding 1). -/
structure ZValueRange where
  min : ℚ
  max : ℚ
deriving DecidableEq

/-- `mat4x4<f32>` given by its four columns, as constructed in `vs_main`. -/
structure Mat4 where
  col0 : Vec4
  col1 : Vec4
  col2 : Vec4
  col3 : Vec4
deriving DecidableEq

def vScale (c : ℚ) (v : Vec4) : Vec4 := ⟨c * v.x, c * v.y, c * v.z, c * v.w⟩

def vAdd (u v : Vec4) : Vec4 := ⟨u.x + v.x, u.y + v.y, u.z + v.z, u.w + v.w⟩

/-- Column-major matrix-vector product, the WGSL `m * v`. -/
def mulVec (m : Mat4) (v : Vec4) : Vec4 :=
  vAdd (vAdd (vScale v.x m.col0) (vScale v.y m.col1))
       (vAdd (vScale v.z m.col2) (vScale v.w m.col3))

def idMat : Mat4 := ⟨⟨1,0,0,0⟩, ⟨0,1,0,0⟩, ⟨0,0,1,0⟩, ⟨0,0,0,1⟩⟩

/-- The surface texture: `textureLoad(surface_texture, vec2(x,y), mip)`
modelled as a function of (mip level, x, y). -/
abbrev SurfaceTex := Nat → Nat → Nat → ℚ

/-- The amplitude texture, loaded at mip 0: a function of (x, y). -/
abbrev AmpTex := Nat → Nat → Rgba

/-- The overlay texture, loaded at mip 0: a function of (x, y). -/
abbrev OverlayTex := Nat → Nat → Rgba

/-- `let resize = max(mip_level * 2u, 1u);` (shader.wgsl line 142). -/
def resize (mip_level : Nat) : Nat := max (mip_level * 2) 1

/-- Wrapping `u32` subtraction, for `image_dims.width / resize - 1u`. -/
def u32Sub (a b : Nat) : Nat :=
  (a % 4294967296 + (4294967296 - b % 4294967296)) % 4294967296

/-- `let col = data.index % (image_dims.width) / resize;` (line 143). -/
def vsCol (width mip index : Nat) : Nat := index % width / resize mip

/-- `let row = data.index / (image_dims.width) / resize;` (line 144). -/
def vsRow (width mip index : Nat) : Nat := index / width / resize mip

/-- Effective (LOD-decimated) grid width `image_dims.width / resize`. -/
def effW (width mip : Nat) : Nat := width / resize mip

/-- Effective (LOD-decimated) grid height `image_dims.height / resize`. -/
def effH (height mip : Nat) : Nat := height / resize mip

/-- `let x = 2.0 * f32(col) / f32(image_dims.width / resize - 1u) - 1.0;` (line 146). -/
def ndcX (width mip col : Nat) : ℚ :=
  2 * (col : ℚ) / ((u32Sub (effW width mip) 1 : Nat) : ℚ) - 1

/-- `let y = 1.0 - 2.0 * f32(row) / f32(image_dims.height / resize - 1u);` (line 147). -/
def ndcY (height mip row : Nat) : ℚ :=
  1 - 2 * (row : ℚ) / ((u32Sub (effH height mip) 1 : Nat) : ℚ)

/-- WGSL `clamp(e, low, high) = min(max(e, low), high)`. -/
def clampQ (e low high : ℚ) : ℚ := min (max e low) high

/-- `let z = 1.0 - (z_clamped - z_range.min) / (z_range.max - z_range.min);`
with `z_clamped = clamp(z_value.x, z_range.min, z_range.max)` (lines 149-150). -/
def vsZ (zr : ZValueRange) (sample : ℚ) : ℚ :=
  1 - (clampQ sample zr.min zr.max - zr.min) / (zr.max - zr.min)

/-- The pre-transform NDC point `points = vec4(x, y, z, 1.0)` of `vs_main`. -/
def vsPoints (dims : ImageDimensions) (zr : ZValueRange) (mip : Nat)
    (surface : SurfaceTex) (index : Nat) : Vec4 :=
  ⟨ndcX dims.width mip (vsCol dims.width mip index),
   ndcY dims.height mip (vsRow dims.width mip index),
   vsZ zr (surface mip (vsCol dims.width mip index) (vsRow dims.width mip index)),
   1⟩

/-- `struct VertexOutput` (position, flat pixel, z_value, flat resize). -/
structure VertexOutput where
  position : Vec4
  pixel : Vec2u
  z_value : ℚ
  resize : Nat
deriving DecidableEq

/-- `struct FragmentOutput { color: vec4<f32>, picking: vec2<u32> }`. -/
structure FragmentOutput where
  color : Vec4
  picking : Vec2u
deriving DecidableEq

/-- The vertex stage `vs_main` (shader.wgsl lines 141-176): grid index to
clip position, flat (col,row) pixel, clamped height sample, and LOD stride. -/
def vs_main (dims : ImageDimensions) (zr : ZValueRange) (mip : Nat)
    (surface : SurfaceTex) (transformation projection : Mat4)
    (index : Nat) : VertexOutput :=
  { position := mulVec projection
      (mulVec transformation (vsPoints dims zr mip surface index)),
    pixel := ⟨vsCol dims.width mip index, vsRow dims.width mip index⟩,
    z_value := clampQ (surface mip (vsCol dims.width mip index)
        (vsRow dims.width mip index)) zr.min zr.max,
    resize := resize mip }

/-- `fs_amplitude` (shader.wgsl lines 179-185): green/red ramp from the
amplitude sample at `in.pixel * in.resize`, plus the picking datum. -/
def fs_amplitude (amplitude_texture : AmpTex) (v : VertexOutput) : FragmentOutput :=
  let sampled := amplitude_texture (v.pixel.x * v.resize) (v.pixel.y * v.resize)
  { color := ⟨1 - sampled.r, sampled.r, 0, 1⟩,
    picking := ⟨v.pixel.x * v.resize, v.pixel.y * v.resize⟩ }

/-- The grayscale base color of `fs_height`:
`depth = (in.z_value - z_range.min) / (z_range.max - z_range.min)` replicated,
alpha 1 (shader.wgsl lines 192-193). -/
def heightBase (zr : ZValueRange) (v : VertexOutput) : Vec4 :=
  ⟨(v.z_value - zr.min) / (zr.max - zr.min),
   (v.z_value - zr.min) / (zr.max - zr.min),
   (v.z_value - zr.min) / (zr.max - zr.min), 1⟩

/-- `fs_height` (shader.wgsl lines 188-208): grayscale depth base, alpha
blended with the overlay sample when its alpha is positive, plus picking. -/
def fs_height (overlay_texture : OverlayTex) (zr : ZValueRange)
    (v : VertexOutput) : FragmentOutput :=
  let overlay_color := overlay_texture (v.pixel.x * v.resize) (v.pixel.y * v.resize)
  let base_color := heightBase zr v
  let base_color :=
    if overlay_color.a > 0 then
      ⟨overlay_color.r * overlay_color.a + base_color.x * (1 - overlay_color.a),
       overlay_color.g * overlay_color.a + base_color.y * (1 - overlay_color.a),
       overlay_color.b * overlay_color.a + base_color.z * (1 - overlay_color.a),
       1⟩
    else base_color
  { color := base_color,
    picking := ⟨v.pixel.x * v.resize, v.pixel.y * v.resize⟩ }

/-- The 4×4 height field `[0,1,...,15]` (row-major) of the spec's corner
scenario, as a surface texture sampled at mip 0. -/
def c2Surface : SurfaceTex := fun _ x y => (x : ℚ) + 4 * (y : ℚ)

/-- A fully transparent overlay texture (the spec's default overlay). -/
def noOverlay : OverlayTex := fun _ _ => ⟨0, 0, 0, 0⟩

/-- Modelled from the spec: the LOD-selection boundary.  The viewer core
that chooses the mip level is not part of the sources here (only the shader
is); per the spec, a degenerate LOD grid (effective dimension ≤ 1) is a
configuration error: the call is rejected and prior state retained.
Returns the effective grid dimensions on success. -/
def lodSelect (width height mip : Nat) : Option (Nat × Nat) :=
  if effW width mip ≤ 1 ∨ effH height mip ≤ 1 then none
  else some (effW width mip, effH height mip)

/-- Leading-match test on character lists, the building block for the JS
`String.prototype.includes` model. -/
def startsWithL : List Char → List Char → Bool
  | _, [] => true
  | [], _ :: _ => false
  | a :: as, b :: bs => a == b && startsWithL as bs

/-- Substring occurrence test on character lists. -/
def containsSub (s pat : List Char) : Bool :=
  match s with
  | [] => startsWithL [] pat
  | _ :: rest => startsWithL s pat || containsSub rest pat

/-- JS `message.includes(pat)` modelled on the underlying character lists. -/
def includesStr (s pat : String) : Bool := containsSub s.data pat.data

/-- The marker winit throws during start-up
(`demo.js` line 195: `e.message.includes("Using exceptions for control flow")`). -/
def controlFlowMarker : String := "Using exceptions for control flow"

/-- How `init()` resolved: normally, or by throwing an exception carrying
the given message. -/
inductive InitEvent where
  | ok
  | threw (message : String)

/-- The observable outcome of `initWasm`: its boolean return value and the
status text / CSS class written to the status element. -/
structure InitReport where
  returned : Bool
  statusText : String
  statusClass : String
deriving DecidableEq

/-- `initWasm` (demo.js lines 173-209): success sets status `Ready` and
returns true; an exception whose message is non-empty and contains the
control-flow marker is treated as the engine having started (`Running`,
returns true); any other exception is a failure (`Failed`, returns false). -/
def initWasm : InitEvent → InitReport
  | .ok => ⟨true, "Ready", "success"⟩
  | .threw message =>
      if message ≠ "" ∧ includesStr message controlFlowMarker = true then
        ⟨true, "Running", "success"⟩
      else
        ⟨false, "Failed", "error"⟩

/-- State of the demo's pixel-polling machinery: the `isPolling` flag and
the number of live `pollOnce` chains. -/
structure PollState where
  isPolling : Bool
  activeLoops : Nat
deriving DecidableEq

/-- `startPixelPolling` (demo.js lines 278-315): returns immediately when a
polling loop is already running, otherwise sets the flag and starts one
`pollOnce` chain. -/
def startPixelPolling (s : PollState) : PollState :=
  if s.isPolling then s else { isPolling := true, activeLoops := s.activeLoops + 1 }

/-- Events acting on the polling state: a `startPixelPolling` call (from
the canvas mousemove handler) or one `pollOnce` step of a running chain,
which stops the chain and clears the flag if `wasmViewer` is absent and
otherwise re-arms itself via `setTimeout`. -/
inductive PollEvent where
  | start
  | tick (viewerPresent : Bool)

def pollStep : PollEvent → PollState → PollState
  | .start, s => startPixelPolling s
  | .tick viewerPresent, s =>
      if s.activeLoops = 0 then s
      else if viewerPresent then s
      else { isPolling := false, activeLoops := s.activeLoops - 1 }

/-- Run the polling machinery from the page's initial state
(`isPolling = false`, no loops). -/
def runPoll (events : List PollEvent) : PollState :=
  events.foldl (fun s e => pollStep e s) ⟨false, 0⟩

/-- The polling invariant: exactly one chain is live while `isPolling`,
none otherwise. -/
def pollInv (s : PollState) : Prop :=
  s.activeLoops = if s.isPolling then 1 else 0

lemma u32Sub_one {a : Nat} (h1 : 1 ≤ a) (h2 : a < 4294967296) :
    u32Sub a 1 = a - 1 := by
  unfold u32Sub
  omega

lemma mul_pred_div (s e : Nat) (hs : 0 < s) (he : 0 < e) :
    (s * e - 1) / s = e - 1 := by
  obtain ⟨f, rfl⟩ : ∃ f, e = f + 1 := ⟨e - 1, by omega⟩
  have hms : s * (f + 1) = s * f + s := by ring
  have h : s * (f + 1) - 1 = (s - 1) + s * f := by omega
  rw [h, Nat.add_mul_div_left _ _ hs, Nat.div_eq_of_lt (by omega)]
  omega

lemma pred_div_eq {s e w : Nat} (hs : 0 < s) (he : 0 < e) (hw : s * e = w) :
    (w - 1) / s = e - 1 := by
  subst hw
  exact mul_pred_div s e hs he

lemma mul_pred_mod (w h : Nat) (hw : 0 < w) (hh : 0 < h) :
    (w * h - 1) % w = w - 1 := by
  obtain ⟨g, rfl⟩ : ∃ g, h = g + 1 := ⟨h - 1, by omega⟩
  have hms : w * (g + 1) = w * g + w := by ring
  have he : w * (g + 1) - 1 = (w - 1) + w * g := by omega
  rw [he, Nat.add_mul_mod_self_left, Nat.mod_eq_of_lt (by omega)]

lemma ndcX_zero (width mip : Nat) : ndcX width mip 0 = -1 := by
  simp [ndcX]

lemma ndcY_zero (height mip : Nat) : ndcY height mip 0 = 1 := by
  simp [ndcY]

lemma ndcX_last (width mip : Nat) (hW : width < 4294967296)
    (he : 2 ≤ effW width mip) : ndcX width mip (effW width mip - 1) = 1 := by
  have hlt : effW width mip < 4294967296 := by
    unfold effW
    exact lt_of_le_of_lt (Nat.div_le_self _ _) hW
  unfold ndcX
  rw [u32Sub_one (by omega) hlt]
  have hc : ((effW width mip - 1 : Nat) : ℚ) ≠ 0 :=
    Nat.cast_ne_zero.mpr (by omega)
  rw [mul_div_assoc, div_self hc]
  norm_num

lemma ndcY_last (height mip : Nat) (hH : height < 4294967296)
    (he : 2 ≤ effH height mip) : ndcY height mip (effH height mip - 1) = -1 := by
  have hlt : effH height mip < 4294967296 := by
    unfold effH
    exact lt_of_le_of_lt (Nat.div_le_self _ _) hH
  unfold ndcY
  rw [u32Sub_one (by omega) hlt]
  have hc : ((effH height mip - 1 : Nat) : ℚ) ≠ 0 :=
    Nat.cast_ne_zero.mpr (by omega)
  rw [mul_div_assoc, div_self hc]
  norm_num

/-- C1, counterexample: at width = 5, height = 5, mipLevel = 1 the stride is
2 and effW = effH = 2 ≥ 2, yet grid index 4 is sent to column 2, outside
[0, effW), and the distinct indices 0 and 1 are sent to the same (col, row)
pair — so the mapping is neither in-bounds nor unique as claimed. -/
theorem C1_counterexample :
    2 ≤ effW 5 1 ∧ 2 ≤ effH 5 1 ∧ (4 : Nat) < 5 * 5
    ∧ vsCol 5 1 4 = 2 ∧ ¬ vsCol 5 1 4 < effW 5 1
    ∧ (0 : Nat) ≠ 1 ∧ vsCol 5 1 0 = vsCol 5 1 1 ∧ vsRow 5 1 0 = vsRow 5 1 1 := by
  decide

/-- C1, amended: under the claim's preconditions and the additional
hypothesis that the stride divides width and height, `vs_main` sends every
grid index in [0, width*height) to a (col, row) pair with col < effW and
row < effH; the mapping is injective when mipLevel = 0 (stride 1); and the
four grid corner indices are sent to NDC coordinates (−1,1), (1,1),
(−1,−1), (1,−1) respectively (each component ±1, y flipped so row 0 is
top). -/
theorem C1_grid_mapping (width height mip : Nat)
    (hWlt : width < 4294967296) (hHlt : height < 4294967296)
    (hdW : resize mip ∣ width) (hdH : resize mip ∣ height)
    (heW : 2 ≤ effW width mip) (heH : 2 ≤ effH height mip) :
    (∀ i, i < width * height →
        vsCol width mip i < effW width mip ∧ vsRow width mip i < effH height mip)
    ∧ (mip = 0 → ∀ i j, i < width * height → j < width * height →
        vsCol width mip i = vsCol width mip j →
        vsRow width mip i = vsRow width mip j → i = j)
    ∧ (ndcX width mip (vsCol width mip 0) = -1
        ∧ ndcY height mip (vsRow width mip 0) = 1)
    ∧ (ndcX width mip (vsCol width mip (width - 1)) = 1
        ∧ ndcY height mip (vsRow width mip (width - 1)) = 1)
    ∧ (ndcX width mip (vsCol width mip (width * (height - 1))) = -1
        ∧ ndcY height mip (vsRow width mip (width * (height - 1))) = -1)
    ∧ (ndcX width mip (vsCol width mip (width * height - 1)) = 1
        ∧ ndcY height mip (vsRow width mip (width * height - 1)) = -1) := by
  have hs : 0 < resize mip := by simp [resize]
  have hwe : resize mip * effW width mip = width := by
    unfold effW
    exact Nat.mul_div_cancel' hdW
  have hhe : resize mip * effH height mip = height := by
    unfold effH
    exact Nat.mul_div_cancel' hdH
  have hw0 : 0 < width := by
    have h2 : 1 * 2 ≤ resize mip * effW width mip := Nat.mul_le_mul hs heW
    omega
  have hh0 : 0 < height := by
    have h2 : 1 * 2 ≤ resize mip * effH height mip := Nat.mul_le_mul hs heH
    omega
  have hkeyW : (width - 1) / resize mip = effW width mip - 1 :=
    pred_div_eq hs (by omega) hwe
  have hkeyH : (height - 1) / resize mip = effH height mip - 1 :=
    pred_div_eq hs (by omega) hhe
  have hcolW : vsCol width mip (width - 1) = effW width mip - 1 := by
    unfold vsCol
    rw [Nat.mod_eq_of_lt (by omega), hkeyW]
  have hcolWH : vsCol width mip (width * height - 1) = effW width mip - 1 := by
    unfold vsCol
    rw [mul_pred_mod _ _ hw0 hh0, hkeyW]
  have hrowH : vsRow width mip (width * (height - 1)) = effH height mip - 1 := by
    unfold vsRow
    rw [Nat.mul_div_cancel_left _ hw0, hkeyH]
  have hrowWH : vsRow width mip (width * height - 1) = effH height mip - 1 := by
    unfold vsRow
    rw [mul_pred_div _ _ hw0 hh0, hkeyH]
  refine ⟨?_, ?_, ?_, ?_, ?_, ?_⟩
  · intro i hi
    constructor
    · unfold vsCol
      rw [Nat.div_lt_iff_lt_mul hs, mul_comm (effW width mip) (resize mip)]
      have hm := Nat.mod_lt i hw0
      omega
    · unfold vsRow
      rw [Nat.div_lt_iff_lt_mul hs, mul_comm (effH height mip) (resize mip)]
      have hiw : i / width < height := by
        rw [Nat.div_lt_iff_lt_mul hw0]
        have hmc : width * height = height * width := Nat.mul_comm _ _
        omega
      omega
  · rintro rfl i j hi hj hc hr
    simp [vsCol, vsRow, resize] at hc hr
    have hdi := Nat.div_add_mod i width
    have hdj := Nat.div_add_mod j width
    rw [hc, hr] at hdi
    omega
  · have h0c : vsCol width mip 0 = 0 := by simp [vsCol]
    have h0r : vsRow width mip 0 = 0 := by simp [vsRow]
    rw [h0c, h0r, ndcX_zero, ndcY_zero]
    exact ⟨rfl, rfl⟩
  · have h0r : vsRow width mip (width - 1) = 0 := by
      unfold vsRow
      rw [Nat.div_eq_of_lt (show width - 1 < width by omega)]
      simp
    rw [hcolW, h0r, ndcX_last _ _ hWlt heW, ndcY_zero]
    exact ⟨rfl, rfl⟩
  · have h0c : vsCol width mip (width * (height - 1)) = 0 := by
      unfold vsCol
      rw [Nat.mul_mod_right]
      simp
    rw [h0c, hrowH, ndcX_zero, ndcY_last _ _ hHlt heH]
    exact ⟨rfl, rfl⟩
  · rw [hcolWH, hrowWH, ndcX_last _ _ hWlt heW, ndcY_last _ _ hHlt heH]
    exact ⟨rfl, rfl⟩

/-- C1, witness: the amended theorem applied at width = 4, height = 4,
mipLevel = 1 (stride 2, effective 2×2 grid). -/
theorem C1_grid_mapping_witness :
    vsCol 4 1 3 < effW 4 1 ∧ vsRow 4 1 12 < effH 4 1
    ∧ (ndcX 4 1 (vsCol 4 1 (4 * 4 - 1)) = 1
        ∧ ndcY 4 1 (vsRow 4 1 (4 * 4 - 1)) = -1) := by
  have h := C1_grid_mapping 4 4 1 (by decide) (by decide) (by decide)
    (by decide) (by decide) (by decide)
  exact ⟨(h.1 3 (by decide)).1, (h.1 12 (by decide)).2, h.2.2.2.2.2⟩

/-- C2, counterexample: in the spec's 4×4 scenario (stride 1), the vertex
for grid index 15 has col = 3, row = 3, but its normalized device y
coordinate is −1, not 1 — the shader flips y (`y = 1 - 2*row/(effH-1)`), so
the NDC pair is (1, −1), refuting the claimed (1, 1). -/
theorem C2_counterexample :
    vsCol 4 0 15 = 3 ∧ vsRow 4 0 15 = 3
    ∧ ndcY 4 0 (vsRow 4 0 15) = -1 ∧ ¬ ndcY 4 0 (vsRow 4 0 15) = 1 := by
  refine ⟨by decide, by decide, ?_, ?_⟩
  · norm_num [ndcY, vsRow, u32Sub, effH, resize]
  · norm_num [ndcY, vsRow, u32Sub, effH, resize]

/-- C2, amended: with width = height = 4, mipLevel = 0 (stride 1), heights
[0,...,15] and value range [0, 15], the vertex for grid index 15 has
col = 3, row = 3, NDC (1, −1) (y flipped so row 0 is top), vertex z = 0,
height-mode depth color 1.0 (output color (1,1,1,1)), and picking datum
(3, 3). -/
theorem C2_corner_scenario :
    vsCol 4 0 15 = 3 ∧ vsRow 4 0 15 = 3
    ∧ ndcX 4 0 (vsCol 4 0 15) = 1 ∧ ndcY 4 0 (vsRow 4 0 15) = -1
    ∧ (vsPoints ⟨4, 4⟩ ⟨0, 15⟩ 0 c2Surface 15).z = 0
    ∧ (fs_height noOverlay ⟨0, 15⟩
        (vs_main ⟨4, 4⟩ ⟨0, 15⟩ 0 c2Surface idMat idMat 15)).color = ⟨1, 1, 1, 1⟩
    ∧ (fs_height noOverlay ⟨0, 15⟩
        (vs_main ⟨4, 4⟩ ⟨0, 15⟩ 0 c2Surface idMat idMat 15)).picking = ⟨3, 3⟩ := by
  refine ⟨by decide, by decide, ?_, ?_, ?_, ?_, ?_⟩
  · norm_num [ndcX, vsCol, u32Sub, effW, resize]
  · norm_num [ndcY, vsRow, u32Sub, effH, resize]
  · norm_num [vsPoints, vsZ, clampQ, c2Surface, vsCol, vsRow, resize]
  · norm_num [fs_height, vs_main, heightBase, noOverlay, c2Surface, clampQ,
      vsCol, vsRow, resize]
  · norm_num [fs_height, vs_main, noOverlay, vsCol, vsRow, resize]

/-- C3: for every height sample s and value range (min, max) with
min < max, the vertex z equals 1 − (clamp(s,min,max) − min)/(max − min)
and the height-mode grayscale depth color equals
(clamp(s,min,max) − min)/(max − min); a sample equal to min yields depth
color 0 and z = 1, a sample equal to max yields depth color 1 and z = 0. -/
theorem C3_depth_mapping (s : ℚ) (zr : ZValueRange) (dims : ImageDimensions)
    (mip index : Nat) (t p : Mat4) (h : zr.min < zr.max) :
    (vsPoints dims zr mip (fun _ _ _ => s) index).z
        = 1 - (clampQ s zr.min zr.max - zr.min) / (zr.max - zr.min)
    ∧ (fs_height noOverlay zr
          (vs_main dims zr mip (fun _ _ _ => s) t p index)).color.x
        = (clampQ s zr.min zr.max - zr.min) / (zr.max - zr.min)
    ∧ (s = zr.min →
        (fs_height noOverlay zr
          (vs_main dims zr mip (fun _ _ _ => s) t p index)).color.x = 0
        ∧ (vsPoints dims zr mip (fun _ _ _ => s) index).z = 1)
    ∧ (s = zr.max →
        (fs_height noOverlay zr
          (vs_main dims zr mip (fun _ _ _ => s) t p index)).color.x = 1
        ∧ (vsPoints dims zr mip (fun _ _ _ => s) index).z = 0) := by
  have hne : zr.max - zr.min ≠ 0 := sub_ne_zero.mpr (ne_of_gt h)
  refine ⟨rfl, ?_, ?_, ?_⟩
  · simp [fs_height, vs_main, heightBase, noOverlay]
  · rintro rfl
    constructor
    · simp [fs_height, vs_main, heightBase, noOverlay, clampQ, max_self,
        min_eq_left h.le]
    · simp [vsPoints, vsZ, clampQ, max_self, min_eq_left h.le]
  · rintro heq
    rw [heq]
    have hcl : clampQ zr.max zr.min zr.max = zr.max := by
      simp [clampQ, max_eq_left h.le]
    constructor
    · simp [fs_height, vs_main, heightBase, noOverlay, hcl, div_self hne]
    · simp [vsPoints, vsZ, hcl, div_self hne]

/-- C3, witness: range [0, 15], sample 15 (= max) gives depth color 1 and
vertex z = 0. -/
theorem C3_depth_mapping_witness :
    (0 : ℚ) < 15
    ∧ (fs_height noOverlay ⟨0, 15⟩
        (vs_main ⟨4, 4⟩ ⟨0, 15⟩ 0 (fun _ _ _ => (15 : ℚ)) idMat idMat 0)).color.x = 1
    ∧ (vsPoints ⟨4, 4⟩ ⟨0, 15⟩ 0 (fun _ _ _ => (15 : ℚ)) 0).z = 0 := by
  have h := C3_depth_mapping 15 ⟨0, 15⟩ ⟨4, 4⟩ 0 0 idMat idMat (by norm_num)
  exact ⟨by norm_num, (h.2.2.2 rfl).1, (h.2.2.2 rfl).2⟩

/-- C4: for every vertex output, the picking datum emitted by
`fs_amplitude` equals the one emitted by `fs_height` (whatever the
textures and value range), both equal
(pixel.x * resize, pixel.y * resize), and on a `vs_main`-produced vertex
this is the full-resolution pair (col * stride, row * stride) — switching
mode never changes which cell a fragment reports. -/
theorem C4_picking_mode_agreement (amp : AmpTex) (ov : OverlayTex)
    (zr zr2 : ZValueRange) (v : VertexOutput) (dims : ImageDimensions)
    (mip : Nat) (surface : SurfaceTex) (t p : Mat4) (index : Nat) :
    (fs_amplitude amp v).picking = (fs_height ov zr v).picking
    ∧ (fs_amplitude amp v).picking = ⟨v.pixel.x * v.resize, v.pixel.y * v.resize⟩
    ∧ (fs_amplitude amp (vs_main dims zr2 mip surface t p index)).picking
        = ⟨vsCol dims.width mip index * resize mip,
           vsRow dims.width mip index * resize mip⟩
    ∧ (fs_height ov zr2 (vs_main dims zr2 mip surface t p index)).picking
        = ⟨vsCol dims.width mip index * resize mip,
           vsRow dims.width mip index * resize mip⟩ :=
  ⟨rfl, rfl, rfl, rfl⟩

/-- C5: in Height mode, an overlay sample with alpha 0 leaves the base
color unchanged; with alpha > 0 the output rgb is
overlay.rgb * alpha + base.rgb * (1 − alpha); alpha 1 fully replaces the
base and alpha 1/2 yields the arithmetic mean of overlay and base rgb. -/
theorem C5_overlay_blend (o : Rgba) (zr : ZValueRange) (v : VertexOutput) :
    (o.a = 0 → (fs_height (fun _ _ => o) zr v).color = heightBase zr v)
    ∧ (0 < o.a → (fs_height (fun _ _ => o) zr v).color
        = ⟨o.r * o.a + (heightBase zr v).x * (1 - o.a),
           o.g * o.a + (heightBase zr v).y * (1 - o.a),
           o.b * o.a + (heightBase zr v).z * (1 - o.a), 1⟩)
    ∧ (o.a = 1 → (fs_height (fun _ _ => o) zr v).color = ⟨o.r, o.g, o.b, 1⟩)
    ∧ (o.a = 1/2 → (fs_height (fun _ _ => o) zr v).color
        = ⟨(o.r + (heightBase zr v).x) / 2, (o.g + (heightBase zr v).y) / 2,
           (o.b + (heightBase zr v).z) / 2, 1⟩) := by
  refine ⟨?_, ?_, ?_, ?_⟩
  · intro h
    simp [fs_height, h, heightBase]
  · intro h
    simp [fs_height, if_pos h]
  · intro h
    simp [fs_height, h]
  · intro h
    have hpos : (0 : ℚ) < o.a := by rw [h]; norm_num
    simp [fs_height, if_pos hpos, h, heightBase]
    refine ⟨by ring, by ring, by ring⟩

/-- C5, witness: a half-transparent red overlay over the black base of a
sample at the bottom of the range blends to half red. -/
theorem C5_overlay_blend_witness :
    (⟨1, 0, 0, 1/2⟩ : Rgba).a = 1/2
    ∧ (fs_height (fun _ _ => (⟨1, 0, 0, 1/2⟩ : Rgba)) ⟨0, 1⟩
        ⟨⟨0, 0, 0, 1⟩, ⟨0, 0⟩, 0, 1⟩).color = ⟨1/2, 0, 0, 1⟩ := by
  have h := (C5_overlay_blend ⟨1, 0, 0, 1/2⟩ ⟨0, 1⟩
    ⟨⟨0, 0, 0, 1⟩, ⟨0, 0⟩, 0, 1⟩).2.2.2 rfl
  refine ⟨rfl, ?_⟩
  rw [h]
  norm_num [heightBase]

/-- C6: the per-vertex NDC mapping divides by (effW − 1) and (effH − 1);
under effW ≥ 2 and effH ≥ 2 both divisors are nonzero (so the per-vertex
mapping is total), while effW = 1 or effH = 1 makes the corresponding
divisor exactly zero and is rejected at the spec-modelled LOD-selection
boundary `lodSelect`. -/
theorem C6_divisor_safety (width height mip : Nat)
    (hW : width < 4294967296) (hH : height < 4294967296) :
    (2 ≤ effW width mip ∧ 2 ≤ effH height mip →
        ((u32Sub (effW width mip) 1 : Nat) : ℚ) ≠ 0
        ∧ ((u32Sub (effH height mip) 1 : Nat) : ℚ) ≠ 0
        ∧ lodSelect width height mip = some (effW width mip, effH height mip))
    ∧ (effW width mip = 1 →
        ((u32Sub (effW width mip) 1 : Nat) : ℚ) = 0
        ∧ lodSelect width height mip = none)
    ∧ (effH height mip = 1 →
        ((u32Sub (effH height mip) 1 : Nat) : ℚ) = 0
        ∧ lodSelect width height mip = none) := by
  have hWlt : effW width mip < 4294967296 := by
    unfold effW
    exact lt_of_le_of_lt (Nat.div_le_self _ _) hW
  have hHlt : effH height mip < 4294967296 := by
    unfold effH
    exact lt_of_le_of_lt (Nat.div_le_self _ _) hH
  refine ⟨?_, ?_, ?_⟩
  · rintro ⟨h1, h2⟩
    refine ⟨?_, ?_, ?_⟩
    · rw [u32Sub_one (by omega) hWlt]
      exact Nat.cast_ne_zero.mpr (by omega)
    · rw [u32Sub_one (by omega) hHlt]
      exact Nat.cast_ne_zero.mpr (by omega)
    · unfold lodSelect
      rw [if_neg (by omega)]
  · intro h1
    constructor
    · rw [u32Sub_one (by omega) hWlt, h1]
      simp
    · unfold lodSelect
      rw [if_pos (Or.inl (by omega))]
  · intro h2
    constructor
    · rw [u32Sub_one (by omega) hHlt, h2]
      simp
    · unfold lodSelect
      rw [if_pos (Or.inr (by omega))]

/-- C6, witness: at width = height = 4, mipLevel = 1 the effective grid is
2×2, both divisors are nonzero and LOD selection accepts; at mipLevel = 2
the effective dimension is 1 and LOD selection rejects. -/
theorem C6_divisor_safety_witness :
    ((u32Sub (effW 4 1) 1 : Nat) : ℚ) ≠ 0
    ∧ lodSelect 4 4 1 = some (effW 4 1, effH 4 1)
    ∧ ((u32Sub (effW 4 2) 1 : Nat) : ℚ) = 0
    ∧ lodSelect 4 4 2 = none := by
  have h1 := C6_divisor_safety 4 4 1 (by decide) (by decide)
  have h2 := C6_divisor_safety 4 4 2 (by decide) (by decide)
  exact ⟨(h1.1 ⟨by decide, by decide⟩).1, (h1.1 ⟨by decide, by decide⟩).2.2,
    (h2.2.1 (by decide)).1, (h2.2.1 (by decide)).2⟩

/-- C7: `initWasm` treats an exception whose message contains
"Using exceptions for control flow" as a one-shot successful start signal
(returns true, status `Running`/`success`), and reports a failure exactly
for exception messages without that marker. -/
theorem C7_init_control_flow (msg : String) :
    initWasm .ok = ⟨true, "Ready", "success"⟩
    ∧ (includesStr msg controlFlowMarker = true →
        initWasm (.threw msg) = ⟨true, "Running", "success"⟩)
    ∧ (initWasm (.threw msg) = ⟨false, "Failed", "error"⟩
        ↔ includesStr msg controlFlowMarker = false) := by
  refine ⟨rfl, ?_, ?_⟩
  · intro h
    have hne : msg ≠ "" := by
      intro he
      rw [he] at h
      exact absurd h (by decide)
    simp [initWasm, hne, h]
  · cases hx : includesStr msg controlFlowMarker
    · simp [initWasm, hx]
    · have hne : msg ≠ "" := by
        intro he
        rw [he] at hx
        exact absurd hx (by decide)
      simp [initWasm, hne, hx]

/-- C7, witness: a winit-style control-flow message is accepted as a
start signal; an unrelated message is reported as a failure. -/
theorem C7_init_control_flow_witness :
    includesStr "Using exceptions for control flow; normal during startup"
        controlFlowMarker = true
    ∧ initWasm (.threw "Using exceptions for control flow; normal during startup")
        = ⟨true, "Running", "success"⟩
    ∧ initWasm (.threw "device lost") = ⟨false, "Failed", "error"⟩ := by
  refine ⟨by decide, ?_, ?_⟩
  · exact (C7_init_control_flow
      "Using exceptions for control flow; normal during startup").2.1 (by decide)
  · exact (C7_init_control_flow "device lost").2.2.mpr (by decide)

/-- C8: both fragment shaders emit a visible color whose alpha is exactly
1 in every branch, including the overlay-blended branch. -/
theorem C8_alpha_always_one (amp : AmpTex) (ov : OverlayTex)
    (zr : ZValueRange) (v : VertexOutput) :
    (fs_amplitude amp v).color.w = 1 ∧ (fs_height ov zr v).color.w = 1 := by
  constructor
  · rfl
  · simp only [fs_height, heightBase]
    split <;> rfl

/-- C9: the picking datum of either fragment shader is unchanged under any
change of the amplitude texture, overlay texture or value range — it is a
function of the vertex's pixel and resize fields alone. -/
theorem C9_picking_noninterference (v : VertexOutput)
    (amp amp2 : AmpTex) (ov ov2 : OverlayTex) (zr zr2 : ZValueRange) :
    (fs_amplitude amp v).picking = (fs_amplitude amp2 v).picking
    ∧ (fs_height ov zr v).picking = (fs_height ov2 zr2 v).picking
    ∧ (fs_amplitude amp v).picking = ⟨v.pixel.x * v.resize, v.pixel.y * v.resize⟩
    ∧ (fs_height ov zr v).picking = ⟨v.pixel.x * v.resize, v.pixel.y * v.resize⟩ :=
  ⟨rfl, rfl, rfl, rfl⟩

lemma pollInv_step (e : PollEvent) (s : PollState) (h : pollInv s) :
    pollInv (pollStep e s) := by
  cases e with
  | start =>
      simp only [pollStep, startPixelPolling]
      by_cases hb : s.isPolling = true
      · rw [if_pos hb]
        exact h
      · rw [if_neg hb]
        simp only [Bool.not_eq_true] at hb
        unfold pollInv at h ⊢
        rw [hb] at h
        simp at h
        simp [h]
  | tick vp =>
      simp only [pollStep]
      by_cases h0 : s.activeLoops = 0
      · rw [if_pos h0]
        exact h
      · rw [if_neg h0]
        by_cases hv : vp = true
        · rw [if_pos hv]
          exact h
        · rw [if_neg hv]
          have hle : s.activeLoops ≤ 1 := by
            unfold pollInv at h
            split at h <;> omega
          unfold pollInv
          simp
          omega

lemma pollInv_foldl (events : List PollEvent) (s : PollState) (h : pollInv s) :
    pollInv (events.foldl (fun t e => pollStep e t) s) := by
  induction events generalizing s with
  | nil => exact h
  | cons e rest ih => exact ih _ (pollInv_step e s h)

/-- C10: `startPixelPolling` is idempotent while polling is active — with
`isPolling` set it returns the state unchanged — and along every event
sequence from the initial state at most one polling loop is live. -/
theorem C10_polling_idempotent (s : PollState) (events : List PollEvent)
    (h : s.isPolling = true) :
    startPixelPolling s = s ∧ (runPoll events).activeLoops ≤ 1 := by
  constructor
  · simp [startPixelPolling, h]
  · have hinv : pollInv (runPoll events) :=
      pollInv_foldl events ⟨false, 0⟩ rfl
    unfold pollInv at hinv
    split at hinv <;> omega

/-- C10, witness: starting twice and ticking once keeps at most one loop,
and a second `startPixelPolling` on an active state is a no-op. -/
theorem C10_polling_idempotent_witness :
    startPixelPolling ⟨true, 1⟩ = ⟨true, 1⟩
    ∧ (runPoll [.start, .start, .tick true]).activeLoops ≤ 1 :=
  C10_polling_idempotent ⟨true, 1⟩ [.start, .start, .tick true] rfl

end Viewer
